import Mathlib

/-!
# Verification of the rs-lox-tw tree-walking interpreter

Shallow embedding of the repository sources:
`src/src/token.rs`, `src/src/environment.rs`, `src/src/errors.rs`,
`src/src/parser.rs`, `src/src/interpreter.rs`.

Modelling conventions:
* Rust `f64` is modelled as `ℚ` (exact arithmetic; none of the verified
  claims involve IEEE rounding, NaN or infinities).
* Rust `HashMap<String, Object>` is modelled as an association list with a
  replace-or-append insert, so lookup/insert semantics coincide with the
  HashMap's for every chain built through the modelled operations.
* `Rc<RefCell<Environment>>` chains are modelled as a first-order chain
  (Rust fixes a frame's `enclosing` at creation and the verified operations
  only mutate frames reachable from the current one, so the chain view is
  faithful); in-place mutation becomes returning the updated chain.
* Rust panics (e.g. `Environment::ancestor` running out of parents,
  `Option::unwrap`) are modelled as `Option.none` at the outermost level
  where that is needed, otherwise as an explicitly commented error value in
  branches no verified claim exercises.
* Error message strings carried by the Rust error values are omitted; only
  the error type and (where the source stores it) the offending token are
  modelled, which is all the theorems below inspect.
-/

namespace RsLox

/-- Token kinds, from `src/src/token.rs` and the variants referenced across
`scanner.rs` and `parser.rs` (the defining file `token_type.rs` is not under
`src/`; the constructor set is exactly the set of variants the in-`src`
sources use). -/
inductive TokenType where
  | LeftParen | RightParen | LeftBrace | RightBrace
  | Comma | Dot | Minus | Plus | Semicolon | Slash | Star
  | Bang | BangEqual | Equal | EqualEqual
  | Greater | GreaterEqual | Less | LessEqual
  | Identifier | String | Number
  | And | Class | Else | False | Fun | For | If | Nil | Or
  | Print | Return | Super | This | True | Var | While
  | Eof
  deriving DecidableEq, Repr

/-- Runtime values, from `enum Object` in `src/src/token.rs`.
`Num(f64)` is modelled with an exact rational payload. -/
inductive Object where
  | Num (x : ℚ)
  | Str (s : String)
  | Nil
  | True
  | False
  deriving DecidableEq, Repr

/-- `Object::from(bool)` as used by `interpreter.rs` (the `From` impls live
outside `src/`; the mapping to `True`/`False` is forced by the variant set
and by the spec's Value model). -/
def Object.ofBool (b : Bool) : Object :=
  if b then Object.True else Object.False

/-- Tokens, from `struct Token` in `src/src/token.rs`. -/
structure Token where
  ttype : TokenType
  lexeme : String
  literal : Option Object
  src_line : Nat
  src_start : Nat
  src_end : Nat
  deriving DecidableEq, Repr

/-- `Token::eof` from `src/src/token.rs`. -/
def Token.eof (src_line src_at : Nat) : Token :=
  { ttype := TokenType.Eof, lexeme := "", literal := none,
    src_line := src_line, src_start := src_at, src_end := src_at + 1 }

/-! ## Environment (`src/src/environment.rs`) -/

/-- The `values: HashMap<String, Object>` field of a frame, modelled as an
association list; `insert` replaces the first matching key or appends. -/
def Frame : Type := List (String × Object)

instance : DecidableEq Frame := by
  unfold Frame; infer_instance

/-- Empty frame (`HashMap::new()`). -/
def Frame.empty : Frame := []

/-- `HashMap::get` (first binding of the key). -/
def Frame.getVal : Frame → String → Option Object
  | [], _ => none
  | (k, w) :: rest, n => if k = n then some w else Frame.getVal rest n

/-- `HashMap::insert`: replace the binding when the key is present
(also what `Entry::Occupied(e).insert` does), append it otherwise. -/
def Frame.insert : Frame → String → Object → Frame
  | [], n, v => [(n, v)]
  | (k, w) :: rest, n, v =>
      if k = n then (k, v) :: rest else (k, w) :: Frame.insert rest n v

/-- Environment chain, from `struct Environment`: a `values` frame plus an
optional `enclosing` chain. The Rust field `enclosing : Option<Rc<RefCell<..>>>`
is rendered as the two constructors (`global` for `None`). -/
inductive Environment where
  | global (values : Frame)
  | nested (values : Frame) (enclosing : Environment)
  deriving DecidableEq

/-- The `values` field of the current frame. -/
def Environment.values : Environment → Frame
  | .global v => v
  | .nested v _ => v

/-- The `enclosing` field. -/
def Environment.enclosingOpt : Environment → Option Environment
  | .global _ => none
  | .nested _ e => some e

/-- The error type `environment.rs` produces
(`LoxResult::Environment { error_type: UnknownVariable, .. }` from
`src/src/errors.rs`; the message string is omitted). -/
inductive EnvError where
  | UnknownVariable
  deriving DecidableEq, Repr

/-- `Environment::define`: insert-or-replace into the current frame. -/
def Environment.define : Environment → String → Object → Environment
  | .global v, name, obj => .global (Frame.insert v name obj)
  | .nested v e, name, obj => .nested (Frame.insert v name obj) e

/-- `Environment::get`: local frame first, then the enclosing chain
recursively; miss everywhere is `UnknownVariable`. -/
def Environment.get : Environment → Token → Except EnvError Object
  | .global v, tok =>
      match Frame.getVal v tok.lexeme with
      | some x => .ok x
      | none => .error EnvError.UnknownVariable
  | .nested v e, tok =>
      match Frame.getVal v tok.lexeme with
      | some x => .ok x
      | none => e.get tok

/-- The loop body of `Environment::ancestor`: walk `n` further `enclosing`
hops; `none` models the source's `panic!("No ancestor at depth ...")`. -/
def Environment.ancestorLoop : Environment → Nat → Option Environment
  | e, 0 => some e
  | .global _, _ + 1 => none
  | .nested _ p, n + 1 => Environment.ancestorLoop p n

/-- `Environment::ancestor(distance)`: one unconditional hop to `enclosing`
(`expect` panic when absent, modelled as `none`), then `distance - 1` more
hops (`for i in 1..distance`). Note the total hop count is
`max distance 1`, so `ancestor(0)` already moves to the parent frame. -/
def Environment.ancestor : Environment → Nat → Option Environment
  | .global _, _ => none
  | .nested _ p, distance => Environment.ancestorLoop p (distance - 1)

/-- `Environment::get_at(distance, name)`: with `distance > 0`, fetch
`ancestor(distance)` and run the full recursive `get` from there; with
`distance = 0`, look only in the current frame's own map.
`none` models the `ancestor` panic. -/
def Environment.get_at (env : Environment) (distance : Nat) (name : Token) :
    Option (Except EnvError Object) :=
  if distance > 0 then
    (env.ancestor distance).map (fun a => a.get name)
  else
    some (match Frame.getVal env.values name.lexeme with
      | some val => .ok val
      | none => .error EnvError.UnknownVariable)

/-- `Environment::assign`: overwrite the binding in the current frame when
present (`Entry::Occupied`), otherwise recurse into `enclosing`; miss
everywhere is `UnknownVariable`. Mutation is rendered as returning the
updated chain. -/
def Environment.assign : Environment → Token → Object → Except EnvError Environment
  | .global v, tok, value =>
      if (Frame.getVal v tok.lexeme).isSome then
        .ok (.global (Frame.insert v tok.lexeme value))
      else
        .error EnvError.UnknownVariable
  | .nested v e, tok, value =>
      if (Frame.getVal v tok.lexeme).isSome then
        .ok (.nested (Frame.insert v tok.lexeme value) e)
      else
        (e.assign tok value).map (fun e' => .nested v e')

/-- Walk the same hops `ancestor` takes and perform the recursive `assign`
there. Rust mutates the ancestor in place through `Rc<RefCell<..>>`; the
functional rendering rebuilds the chain around the updated suffix.
`none` models the `ancestor` panic. -/
def Environment.assignReattach : Environment → Nat → Token → Object →
    Option (Except EnvError Environment)
  | e, 0, name, value => some (e.assign name value)
  | .global _, _ + 1, _, _ => none
  | .nested v p, n + 1, name, value =>
      (Environment.assignReattach p n name value).map
        (Except.map (Environment.nested v))

/-- `Environment::assign_at(distance, name, value)` =
`ancestor(distance).assign(name, value)`: one unconditional hop, then
`distance - 1` more (total `max distance 1`), then the recursive `assign`. -/
def Environment.assign_at (env : Environment) (distance : Nat) (name : Token)
    (value : Object) : Option (Except EnvError Environment) :=
  match env with
  | .global _ => none
  | .nested v p =>
      (Environment.assignReattach p (distance - 1) name value).map
        (Except.map (Environment.nested v))

/-! ## AST (`expr.rs` / `stmt.rs` are referenced from `src/` but absent from it) -/

/-- Expression nodes. The defining file `expr.rs` is not under `src/`; the
constructors below up to `Call` are exactly the node shapes `parser.rs`
constructs and `interpreter.rs` visits. `Get` and `Set` are
Modelled from the spec: §3 lists `Get(object, name)` and
`Set(object, name, value)` among the Expr variants; nothing in the in-`src`
parser or interpreter ever constructs or handles them. -/
inductive Expr where
  | Literal (value : Option Object)
  | Grouping (expression : Expr)
  | Unary (operator : Token) (right : Expr)
  | Binary (left : Expr) (operator : Token) (right : Expr)
  | Logical (left : Expr) (operator : Token) (right : Expr)
  | Variable (name : Token)
  | Assign (name : Token) (value : Expr)
  | Call (callee : Expr) (paren : Token) (arguments : List Expr)
  | Get (object : Expr) (name : Token)
  | Set (object : Expr) (name : Token) (value : Expr)

/-- Statement nodes, the shapes `parser.rs` constructs (`stmt.rs` is not
under `src/`). -/
inductive Stmt where
  | Expression (expression : Expr)
  | Print (expression : Expr)
  | Var (name : Token) (initializer : Option Expr)
  | Block (statements : List Stmt)
  | If (condition : Expr) (then_branch : Stmt) (else_branch : Option Stmt)
  | While (condition : Expr) (body : Stmt)
  | Function (name : Token) (params : List Token) (body : List Stmt)
  | Return (keyword : Token) (value : Option Expr)

/-! ## Interpreter (`src/src/interpreter.rs`) -/

/-- The `ExprError` variants `interpreter.rs` produces (its defining errors
module is not under `src/`; `src/src/errors.rs` names the same runtime error
taxonomy in `RuntimeErrorType`, plus the placeholder `InvalidExpression`
used where the source comments say "TODO: Specific error"). -/
inductive ExprError where
  | InvalidExpression
  | UnreachableCode
  | ExpectedNumberOperand
  | ExpectedNumberOperands
  | ExpectedAddableOperands
  deriving DecidableEq, Repr

/-- `Interpreter::is_truthy`: only `Nil` and `False` are falsy. -/
def is_truthy (obj : Object) : Bool :=
  !(obj == Object.Nil || obj == Object.False)

/-- `Interpreter::evaluate` / the `ExprVisitor<Object>` impl.
The visitor dispatch covers exactly `Literal`, `Unary`, `Grouping`,
`Binary` and `Variable`; the source implements no visit method for the
remaining variants, so those fall to the final catch-all here (modelled as
`UnreachableCode`; no verified claim exercises that branch). The source's
`expr.value.clone().unwrap()` panic on a `None` literal is likewise modelled
as `UnreachableCode` and never exercised. -/
def evaluate (env : Environment) : Expr → Except ExprError Object
  | .Literal v =>
      match v with
      | some o => .ok o
      | none => .error ExprError.UnreachableCode
  | .Grouping e => evaluate env e
  | .Unary op right => do
      let r ← evaluate env right
      match op.ttype with
      | .Minus =>
          match r with
          | .Num x => .ok (.Num (-x))
          | _ => .error ExprError.ExpectedNumberOperand
      | .Bang => .ok (Object.ofBool (!is_truthy r))
      | _ => .error ExprError.UnreachableCode
  | .Binary left op right => do
      let l ← evaluate env left
      let r ← evaluate env right
      match op.ttype with
      | .Minus =>
          match l, r with
          | .Num a, .Num b => .ok (.Num (a - b))
          | _, _ => .error ExprError.InvalidExpression
      | .Slash =>
          match l, r with
          | .Num a, .Num b => .ok (.Num (a / b))
          | _, _ => .error ExprError.InvalidExpression
      | .Star =>
          match l, r with
          | .Num a, .Num b => .ok (.Num (a * b))
          | _, _ => .error ExprError.InvalidExpression
      | .Plus =>
          match l, r with
          | .Num a, .Num b => .ok (.Num (a + b))
          | .Str a, .Str b => .ok (.Str (a ++ b))
          | _, _ => .error ExprError.ExpectedAddableOperands
      | .Greater =>
          match l, r with
          | .Num a, .Num b => .ok (Object.ofBool (a > b))
          | _, _ => .error ExprError.ExpectedNumberOperands
      | .GreaterEqual =>
          match l, r with
          | .Num a, .Num b => .ok (Object.ofBool (a ≥ b))
          | _, _ => .error ExprError.ExpectedNumberOperands
      | .Less =>
          match l, r with
          | .Num a, .Num b => .ok (Object.ofBool (a < b))
          | _, _ => .error ExprError.ExpectedNumberOperands
      | .LessEqual =>
          match l, r with
          | .Num a, .Num b => .ok (Object.ofBool (a ≤ b))
          | _, _ => .error ExprError.ExpectedNumberOperands
      | .BangEqual => .ok (Object.ofBool (!(l == r)))
      | .EqualEqual => .ok (Object.ofBool (l == r))
      | _ => .error ExprError.InvalidExpression
  | .Variable name =>
      match env.get name with
      | .ok o => .ok o
      | .error _ => .error ExprError.InvalidExpression
  | _ => .error ExprError.UnreachableCode

/-- One line of terminal output produced while interpreting. -/
inductive OutEvent where
  | stdoutValue (o : Object)
  | stderrError (e : ExprError)
  | stdoutDebugError (e : ExprError)
  deriving DecidableEq, Repr

/-- The `StmtVisitor<()>` impl of `interpreter.rs`. Only `Expression`,
`Print` and `Var` have visit methods in the source; the remaining statement
shapes fall to the catch-all (no verified claim exercises it).
The visitors take `&self`, so the environment is never mutated; in
particular `visit_var_stmt` evaluates the initialiser and discards it — the
`self.environment.define(..)` call is commented out in the source behind a
`TODO`. Each case returns the statement result together with the terminal
output it emits. -/
def visitStmt (env : Environment) : Stmt → Except ExprError Unit × List OutEvent
  | .Expression e =>
      match evaluate env e with
      | .ok _ => (.ok Unit.unit, [])
      | .error er => (.ok Unit.unit, [OutEvent.stderrError er])
  | .Print e =>
      match evaluate env e with
      | .ok v => (.ok Unit.unit, [OutEvent.stdoutValue v])
      | .error _ => (.ok Unit.unit, [])
  | .Var _ initializer =>
      match initializer with
      | some e =>
          match evaluate env e with
          | .ok _ => (.ok Unit.unit, [])
          | .error er => (.error er, [])
      | none => (.ok Unit.unit, [])
  | _ => (.error ExprError.UnreachableCode, [])

/-- `Interpreter::execute`: run one statement; an `Err` from the visitor is
printed (`println!("{:?}", e)`) and swallowed. -/
def execute (env : Environment) (stmt : Stmt) : List OutEvent :=
  match visitStmt env stmt with
  | (.ok _, evs) => evs
  | (.error e, evs) => evs ++ [OutEvent.stdoutDebugError e]

/-- `Interpreter::interpret`: execute every statement in order; nothing is
ever returned to the caller (the Rust function returns `()`). -/
def interpret (env : Environment) : List Stmt → List OutEvent
  | [] => []
  | s :: rest => execute env s ++ interpret env rest

/-! ## Value display (`impl fmt::Display for Object` in `src/src/token.rs`) -/

/-- Models Rust's `{}` `Display` for `f64` as far as the theorems below rely
on it: an integral value prints with no fractional part (Rust prints `3`,
never `3.0`). Non-integral rationals are rendered with `ℚ`'s own printer;
only the integral case is inspected by any theorem. -/
def renderNum (q : ℚ) : String :=
  if q.den = 1 then toString q.num else toString q

/-- `Object`'s `Display` impl: note the source writes string contents
surrounded by double quotes (`write!(f, "\"{}\"", s)`). -/
def Object.display : Object → String
  | .Num x => renderNum x
  | .Str s => "\"" ++ s ++ "\""
  | .Nil => "nil"
  | .True => "true"
  | .False => "false"

/-! ## Parser (`src/src/parser.rs`)

The recursive-descent parser is embedded with an explicit token list, an
explicit `current` index and a fuel parameter (an artifact of the
embedding: every function consumes one unit, and any fuel larger than the
total work bound yields the source behaviour; fuel exhaustion is reported
through the dedicated error `LoxError.fuel`, which the source never
produces). Errors carry the index the Rust parser's `self.current` holds at
the error site, since `synchronize` resumes from it. -/

/-- Parser error kinds, from `ParserErrorType` in `src/src/errors.rs`. -/
inductive ParserErrorType where
  | ExpectedExpression
  | InvalidConsumeType
  | InvalidAssignTarget
  | MaxArgNumber
  deriving DecidableEq, Repr

/-- `LoxResult::Parser { token, error_type, msg }` (message omitted), plus
the fuel-exhaustion marker of the embedding. -/
inductive LoxError where
  | parser (token : Token) (error_type : ParserErrorType)
  | fuel
  deriving DecidableEq, Repr

/-- A parse error together with the `current` index at the error site. -/
abbrev PErr := LoxError × Nat

/-- `self.tokens[i]`: models slice indexing. Out-of-range indexing panics in
Rust; scanner output always ends with an `Eof` token, which every in-range
run stops at, so the default is never reached on such input. -/
def tokenAt (toks : List Token) (i : Nat) : Token :=
  toks.getD i (Token.eof 0 0)

/-- `Parser::peek`. -/
def peek (toks : List Token) (cur : Nat) : Token := tokenAt toks cur

/-- `Parser::previous` (`self.tokens[self.current - 1]`). -/
def previous (toks : List Token) (cur : Nat) : Token := tokenAt toks (cur - 1)

/-- `Parser::is_at_end`. -/
def is_at_end (toks : List Token) (cur : Nat) : Bool :=
  (peek toks cur).ttype == TokenType.Eof

/-- `Parser::advance`: step `current` unless at end, return the token just
consumed (`previous`) and the new index. -/
def advance (toks : List Token) (cur : Nat) : Token × Nat :=
  let cur' := if is_at_end toks cur then cur else cur + 1
  (previous toks cur', cur')

/-- `Parser::check`. -/
def check (toks : List Token) (cur : Nat) (ttype : TokenType) : Bool :=
  if is_at_end toks cur then false else (peek toks cur).ttype == ttype

/-- `Parser::matchs_next`: advance past the next token when its type is one
of `types`. -/
def matchs_next (toks : List Token) (cur : Nat) (types : List TokenType) :
    Bool × Nat :=
  if types.any (fun t => check toks cur t) then (true, (advance toks cur).2)
  else (false, cur)

/-- `Parser::consume` (message string omitted). -/
def consume (toks : List Token) (cur : Nat) (ttype : TokenType) :
    Except PErr (Token × Nat) :=
  if check toks cur ttype then .ok (advance toks cur)
  else .error (LoxError.parser (tokenAt toks cur) ParserErrorType.InvalidConsumeType, cur)

/-- The assignment-target dispatch of `Parser::assignment`
(`parser.rs` lines 419-430): a `Variable` left-hand side becomes `Assign`;
every other left-hand side is an `InvalidAssignTarget` error carrying the
`=` token. There is no `Get` arm and no `Set` node in the source. -/
def assignTarget (expr : Expr) (equals : Token) (value : Expr) :
    Except LoxError Expr :=
  match expr with
  | .Variable name => .ok (.Assign name value)
  | _ => .error (LoxError.parser equals ParserErrorType.InvalidAssignTarget)

/-- The straight-line tail of `Parser::for_statement`
(`parser.rs` lines 270-304): wrap the body with the increment, default the
condition to a `true` literal, build the `While`, and prepend the
initializer. -/
def forAssemble (initializer : Option Stmt) (condition : Option Expr)
    (increment : Option Expr) (body0 : Stmt) : Stmt :=
  let body1 :=
    match increment with
    | some i => Stmt.Block [body0, Stmt.Expression i]
    | none => body0
  let cond :=
    match condition with
    | some c => c
    | none => Expr.Literal (some Object.True)
  let body2 := Stmt.While cond body1
  match initializer with
  | some init => Stmt.Block [init, body2]
  | none => body2

set_option maxHeartbeats 2000000

mutual

/-- `Parser::expression`. -/
def expression : Nat → List Token → Nat → Except PErr (Expr × Nat)
  | 0, _, cur => .error (LoxError.fuel, cur)
  | fuel + 1, toks, cur => assignment fuel toks cur
  termination_by structural fuel => fuel

/-- `Parser::assignment`. -/
def assignment : Nat → List Token → Nat → Except PErr (Expr × Nat)
  | 0, _, cur => .error (LoxError.fuel, cur)
  | fuel + 1, toks, cur => do
      let (expr, c1) ← orP fuel toks cur
      let (mEq, c2) := matchs_next toks c1 [TokenType.Equal]
      if mEq then do
        let equals := previous toks c2
        let (value, c3) ← assignment fuel toks c2
        match assignTarget expr equals value with
        | .ok e => .ok (e, c3)
        | .error err => .error (err, c3)
      else
        .ok (expr, c2)
  termination_by structural fuel => fuel

/-- `Parser::or` (named `orP`; `or` would shadow the Boolean operation). -/
def orP : Nat → List Token → Nat → Except PErr (Expr × Nat)
  | 0, _, cur => .error (LoxError.fuel, cur)
  | fuel + 1, toks, cur => do
      let (e, c1) ← andP fuel toks cur
      orLoop fuel toks e c1
  termination_by structural fuel => fuel

/-- The `while` loop of `Parser::or`. -/
def orLoop : Nat → List Token → Expr → Nat → Except PErr (Expr × Nat)
  | 0, _, _, cur => .error (LoxError.fuel, cur)
  | fuel + 1, toks, expr, cur =>
      let (m, c1) := matchs_next toks cur [TokenType.Or]
      if m then do
        let operator := previous toks c1
        let (right, c2) ← andP fuel toks c1
        orLoop fuel toks (Expr.Logical expr operator right) c2
      else .ok (expr, c1)
  termination_by structural fuel => fuel

/-- `Parser::and` (named `andP`). -/
def andP : Nat → List Token → Nat → Except PErr (Expr × Nat)
  | 0, _, cur => .error (LoxError.fuel, cur)
  | fuel + 1, toks, cur => do
      let (e, c1) ← equality fuel toks cur
      andLoop fuel toks e c1
  termination_by structural fuel => fuel

/-- The `while` loop of `Parser::and`. -/
def andLoop : Nat → List Token → Expr → Nat → Except PErr (Expr × Nat)
  | 0, _, _, cur => .error (LoxError.fuel, cur)
  | fuel + 1, toks, expr, cur =>
      let (m, c1) := matchs_next toks cur [TokenType.And]
      if m then do
        let operator := previous toks c1
        let (right, c2) ← equality fuel toks c1
        andLoop fuel toks (Expr.Logical expr operator right) c2
      else .ok (expr, c1)
  termination_by structural fuel => fuel

/-- `Parser::equality`. -/
def equality : Nat → List Token → Nat → Except PErr (Expr × Nat)
  | 0, _, cur => .error (LoxError.fuel, cur)
  | fuel + 1, toks, cur => do
      let (e, c1) ← comparison fuel toks cur
      equalityLoop fuel toks e c1
  termination_by structural fuel => fuel

/-- The `while` loop of `Parser::equality`. -/
def equalityLoop : Nat → List Token → Expr → Nat → Except PErr (Expr × Nat)
  | 0, _, _, cur => .error (LoxError.fuel, cur)
  | fuel + 1, toks, expr, cur =>
      let (m, c1) := matchs_next toks cur [TokenType.BangEqual, TokenType.EqualEqual]
      if m then do
        let operator := previous toks c1
        let (right, c2) ← comparison fuel toks c1
        equalityLoop fuel toks (Expr.Binary expr operator right) c2
      else .ok (expr, c1)
  termination_by structural fuel => fuel

/-- `Parser::comparison`. -/
def comparison : Nat → List Token → Nat → Except PErr (Expr × Nat)
  | 0, _, cur => .error (LoxError.fuel, cur)
  | fuel + 1, toks, cur => do
      let (e, c1) ← term fuel toks cur
      comparisonLoop fuel toks e c1
  termination_by structural fuel => fuel

/-- The `while` loop of `Parser::comparison`. -/
def comparisonLoop : Nat → List Token → Expr → Nat → Except PErr (Expr × Nat)
  | 0, _, _, cur => .error (LoxError.fuel, cur)
  | fuel + 1, toks, expr, cur =>
      let (m, c1) := matchs_next toks cur
        [TokenType.Greater, TokenType.GreaterEqual, TokenType.Less, TokenType.LessEqual]
      if m then do
        let operator := previous toks c1
        let (right, c2) ← term fuel toks c1
        comparisonLoop fuel toks (Expr.Binary expr operator right) c2
      else .ok (expr, c1)
  termination_by structural fuel => fuel

/-- `Parser::term`. -/
def term : Nat → List Token → Nat → Except PErr (Expr × Nat)
  | 0, _, cur => .error (LoxError.fuel, cur)
  | fuel + 1, toks, cur => do
      let (e, c1) ← factor fuel toks cur
      termLoop fuel toks e c1
  termination_by structural fuel => fuel

/-- The `while` loop of `Parser::term`. -/
def termLoop : Nat → List Token → Expr → Nat → Except PErr (Expr × Nat)
  | 0, _, _, cur => .error (LoxError.fuel, cur)
  | fuel + 1, toks, expr, cur =>
      let (m, c1) := matchs_next toks cur [TokenType.Minus, TokenType.Plus]
      if m then do
        let operator := previous toks c1
        let (right, c2) ← factor fuel toks c1
        termLoop fuel toks (Expr.Binary expr operator right) c2
      else .ok (expr, c1)
  termination_by structural fuel => fuel

/-- `Parser::factor`. -/
def factor : Nat → List Token → Nat → Except PErr (Expr × Nat)
  | 0, _, cur => .error (LoxError.fuel, cur)
  | fuel + 1, toks, cur => do
      let (e, c1) ← unary fuel toks cur
      factorLoop fuel toks e c1
  termination_by structural fuel => fuel

/-- The `while` loop of `Parser::factor`. -/
def factorLoop : Nat → List Token → Expr → Nat → Except PErr (Expr × Nat)
  | 0, _, _, cur => .error (LoxError.fuel, cur)
  | fuel + 1, toks, expr, cur =>
      let (m, c1) := matchs_next toks cur [TokenType.Slash, TokenType.Star]
      if m then do
        let operator := previous toks c1
        let (right, c2) ← unary fuel toks c1
        factorLoop fuel toks (Expr.Binary expr operator right) c2
      else .ok (expr, c1)
  termination_by structural fuel => fuel

/-- `Parser::unary`. -/
def unary : Nat → List Token → Nat → Except PErr (Expr × Nat)
  | 0, _, cur => .error (LoxError.fuel, cur)
  | fuel + 1, toks, cur =>
      let (m, c1) := matchs_next toks cur [TokenType.Bang, TokenType.Minus]
      if m then do
        let operator := previous toks c1
        let (right, c2) ← unary fuel toks c1
        .ok (Expr.Unary operator right, c2)
      else call fuel toks c1
  termination_by structural fuel => fuel

/-- `Parser::call`. -/
def call : Nat → List Token → Nat → Except PErr (Expr × Nat)
  | 0, _, cur => .error (LoxError.fuel, cur)
  | fuel + 1, toks, cur => do
      let (e, c1) ← primary fuel toks cur
      callLoop fuel toks e c1
  termination_by structural fuel => fuel

/-- The `loop` of `Parser::call`. -/
def callLoop : Nat → List Token → Expr → Nat → Except PErr (Expr × Nat)
  | 0, _, _, cur => .error (LoxError.fuel, cur)
  | fuel + 1, toks, expr, cur =>
      let (m, c1) := matchs_next toks cur [TokenType.LeftParen]
      if m then do
        let (e2, c2) ← finish_call fuel toks expr c1
        callLoop fuel toks e2 c2
      else .ok (expr, c1)
  termination_by structural fuel => fuel

/-- `Parser::finish_call`. -/
def finish_call : Nat → List Token → Expr → Nat → Except PErr (Expr × Nat)
  | 0, _, _, cur => .error (LoxError.fuel, cur)
  | fuel + 1, toks, callee, cur => do
      let (arguments, c1) ←
        if check toks cur TokenType.RightParen then
          (Except.ok (([] : List Expr), cur) : Except PErr (List Expr × Nat))
        else argsLoop fuel toks [] cur
      match consume toks c1 TokenType.RightParen with
      | .ok (paren, c2) => .ok (Expr.Call callee paren arguments, c2)
      | .error e => .error e
  termination_by structural fuel => fuel

/-- The argument `loop` of `Parser::finish_call` (255-argument cap). -/
def argsLoop : Nat → List Token → List Expr → Nat → Except PErr (List Expr × Nat)
  | 0, _, _, cur => .error (LoxError.fuel, cur)
  | fuel + 1, toks, acc, cur =>
      if acc.length ≥ 255 then
        .error (LoxError.parser (peek toks cur) ParserErrorType.MaxArgNumber, cur)
      else do
        let (e, c1) ← expression fuel toks cur
        let (m, c2) := matchs_next toks c1 [TokenType.Comma]
        if m then argsLoop fuel toks (acc ++ [e]) c2
        else .ok (acc ++ [e], c2)
  termination_by structural fuel => fuel

/-- `Parser::primary`. -/
def primary : Nat → List Token → Nat → Except PErr (Expr × Nat)
  | 0, _, cur => .error (LoxError.fuel, cur)
  | fuel + 1, toks, cur =>
      let (mFalse, c1) := matchs_next toks cur [TokenType.False]
      if mFalse then .ok (Expr.Literal (some Object.False), c1) else
      let (mTrue, c2) := matchs_next toks c1 [TokenType.True]
      if mTrue then .ok (Expr.Literal (some Object.True), c2) else
      let (mNil, c3) := matchs_next toks c2 [TokenType.Nil]
      if mNil then .ok (Expr.Literal (some Object.Nil), c3) else
      let (mLit, c4) := matchs_next toks c3 [TokenType.Number, TokenType.String]
      if mLit then .ok (Expr.Literal (previous toks c4).literal, c4) else
      let (mId, c5) := matchs_next toks c4 [TokenType.Identifier]
      if mId then .ok (Expr.Variable (previous toks c5), c5) else
      let (mLp, c6) := matchs_next toks c5 [TokenType.LeftParen]
      if mLp then do
        let (e, c7) ← expression fuel toks c6
        match consume toks c7 TokenType.RightParen with
        | .ok (_, c8) => .ok (Expr.Grouping e, c8)
        | .error err => .error err
      else
        .error (LoxError.parser (tokenAt toks c6) ParserErrorType.ExpectedExpression, c6)
  termination_by structural fuel => fuel

/-- `Parser::statement`. -/
def statement : Nat → List Token → Nat → Except PErr (Stmt × Nat)
  | 0, _, cur => .error (LoxError.fuel, cur)
  | fuel + 1, toks, cur =>
      let (mFor, c1) := matchs_next toks cur [TokenType.For]
      if mFor then for_statement fuel toks c1 else
      let (mIf, c2) := matchs_next toks c1 [TokenType.If]
      if mIf then if_statement fuel toks c2 else
      let (mPrint, c3) := matchs_next toks c2 [TokenType.Print]
      if mPrint then print_statement fuel toks c3 else
      let (mRet, c4) := matchs_next toks c3 [TokenType.Return]
      if mRet then return_statement fuel toks c4 else
      let (mWhile, c5) := matchs_next toks c4 [TokenType.While]
      if mWhile then while_statement fuel toks c5 else
      let (mBrace, c6) := matchs_next toks c5 [TokenType.LeftBrace]
      if mBrace then do
        let (stmts, c7) ← block_statement fuel toks c6
        .ok (Stmt.Block stmts, c7)
      else expression_statement fuel toks c6
  termination_by structural fuel => fuel

/-- `Parser::for_statement`: parse header and body, then lower through
`forAssemble`. -/
def for_statement : Nat → List Token → Nat → Except PErr (Stmt × Nat)
  | 0, _, cur => .error (LoxError.fuel, cur)
  | fuel + 1, toks, cur => do
      let (_, c1) ← consume toks cur TokenType.LeftParen
      let (initializer, c2) ←
        (let (mSemi, d1) := matchs_next toks c1 [TokenType.Semicolon]
         if mSemi then (Except.ok ((none : Option Stmt), d1) : Except PErr (Option Stmt × Nat))
         else
           let (mVar, d2) := matchs_next toks d1 [TokenType.Var]
           if mVar then do
             let (s, d3) ← var_declaration fuel toks d2
             Except.ok (some s, d3)
           else do
             let (s, d3) ← expression_statement fuel toks d2
             Except.ok (some s, d3))
      let (condition, c3) ←
        (if !(check toks c2 TokenType.Semicolon) then do
           let (e, d) ← expression fuel toks c2
           (Except.ok (some e, d) : Except PErr (Option Expr × Nat))
         else Except.ok (none, c2))
      let (_, c4) ← consume toks c3 TokenType.Semicolon
      let (increment, c5) ←
        (if !(check toks c4 TokenType.RightParen) then do
           let (e, d) ← expression fuel toks c4
           (Except.ok (some e, d) : Except PErr (Option Expr × Nat))
         else Except.ok (none, c4))
      let (_, c6) ← consume toks c5 TokenType.RightParen
      let (body, c7) ← statement fuel toks c6
      .ok (forAssemble initializer condition increment body, c7)
  termination_by structural fuel => fuel

/-- `Parser::if_statement`. -/
def if_statement : Nat → List Token → Nat → Except PErr (Stmt × Nat)
  | 0, _, cur => .error (LoxError.fuel, cur)
  | fuel + 1, toks, cur => do
      let (_, c1) ← consume toks cur TokenType.LeftParen
      let (condition, c2) ← expression fuel toks c1
      let (_, c3) ← consume toks c2 TokenType.RightParen
      let (then_branch, c4) ← statement fuel toks c3
      let (mElse, c5) := matchs_next toks c4 [TokenType.Else]
      if mElse then do
        let (els, c6) ← statement fuel toks c5
        .ok (Stmt.If condition then_branch (some els), c6)
      else .ok (Stmt.If condition then_branch none, c5)
  termination_by structural fuel => fuel

/-- `Parser::print_statement`. -/
def print_statement : Nat → List Token → Nat → Except PErr (Stmt × Nat)
  | 0, _, cur => .error (LoxError.fuel, cur)
  | fuel + 1, toks, cur => do
      let (value, c1) ← expression fuel toks cur
      let (_, c2) ← consume toks c1 TokenType.Semicolon
      .ok (Stmt.Print value, c2)

/-- `Parser::return_statement` (the keyword token is `previous`). -/
def return_statement : Nat → List Token → Nat → Except PErr (Stmt × Nat)
  | 0, _, cur => .error (LoxError.fuel, cur)
  | fuel + 1, toks, cur => do
      let keyword := previous toks cur
      let (value, c1) ←
        (if !(check toks cur TokenType.Semicolon) then do
           let (e, d) ← expression fuel toks cur
           (Except.ok (some e, d) : Except PErr (Option Expr × Nat))
         else Except.ok (none, cur))
      let (_, c2) ← consume toks c1 TokenType.Semicolon
      .ok (Stmt.Return keyword value, c2)

/-- `Parser::while_statement`. The source consumes `LeftParen` where the
closing delimiter ought to be — the bug is preserved here exactly as
written (`parser.rs` line 364). -/
def while_statement : Nat → List Token → Nat → Except PErr (Stmt × Nat)
  | 0, _, cur => .error (LoxError.fuel, cur)
  | fuel + 1, toks, cur => do
      let (_, c1) ← consume toks cur TokenType.LeftParen
      let (condition, c2) ← expression fuel toks c1
      let (_, c3) ← consume toks c2 TokenType.LeftParen
      let (body, c4) ← statement fuel toks c3
      .ok (Stmt.While condition body, c4)
  termination_by structural fuel => fuel

/-- `Parser::block_statement`. -/
def block_statement : Nat → List Token → Nat → Except PErr (List Stmt × Nat)
  | 0, _, cur => .error (LoxError.fuel, cur)
  | fuel + 1, toks, cur => do
      let (stmts, c1) ← blockLoop fuel toks [] cur
      match consume toks c1 TokenType.RightBrace with
      | .ok (_, c2) => .ok (stmts, c2)
      | .error e => .error e
  termination_by structural fuel => fuel

/-- The `while` loop of `Parser::block_statement`. -/
def blockLoop : Nat → List Token → List Stmt → Nat → Except PErr (List Stmt × Nat)
  | 0, _, _, cur => .error (LoxError.fuel, cur)
  | fuel + 1, toks, acc, cur =>
      if !(check toks cur TokenType.RightBrace) && !(is_at_end toks cur) then do
        let (opt, c1) ← declaration fuel toks cur
        match opt with
        | some s => blockLoop fuel toks (acc ++ [s]) c1
        | none => blockLoop fuel toks acc c1
      else .ok (acc, cur)
  termination_by structural fuel => fuel

/-- `Parser::expression_statement`. -/
def expression_statement : Nat → List Token → Nat → Except PErr (Stmt × Nat)
  | 0, _, cur => .error (LoxError.fuel, cur)
  | fuel + 1, toks, cur => do
      let (expr, c1) ← expression fuel toks cur
      let (_, c2) ← consume toks c1 TokenType.Semicolon
      .ok (Stmt.Expression expr, c2)

/-- `Parser::var_declaration`. -/
def var_declaration : Nat → List Token → Nat → Except PErr (Stmt × Nat)
  | 0, _, cur => .error (LoxError.fuel, cur)
  | fuel + 1, toks, cur => do
      let (name, c1) ← consume toks cur TokenType.Identifier
      let (mEq, c2) := matchs_next toks c1 [TokenType.Equal]
      let (initializer, c3) ←
        (if mEq then do
           let (e, d) ← expression fuel toks c2
           (Except.ok (some e, d) : Except PErr (Option Expr × Nat))
         else Except.ok (none, c2))
      let (_, c4) ← consume toks c3 TokenType.Semicolon
      .ok (Stmt.Var name initializer, c4)

/-- `Parser::function` (the `kind` string only feeds error messages and is
omitted). -/
def function : Nat → List Token → Nat → Except PErr (Stmt × Nat)
  | 0, _, cur => .error (LoxError.fuel, cur)
  | fuel + 1, toks, cur => do
      let (name, c1) ← consume toks cur TokenType.Identifier
      let (_, c2) ← consume toks c1 TokenType.LeftParen
      let (params, c3) ←
        (if !(check toks c2 TokenType.RightParen) then paramsLoop fuel toks [] c2
         else (Except.ok (([] : List Token), c2) : Except PErr (List Token × Nat)))
      let (_, c4) ← consume toks c3 TokenType.RightParen
      let (_, c5) ← consume toks c4 TokenType.LeftBrace
      let (body, c6) ← block_statement fuel toks c5
      .ok (Stmt.Function name params body, c6)
  termination_by structural fuel => fuel

/-- The parameter `loop` of `Parser::function` (255-parameter cap). -/
def paramsLoop : Nat → List Token → List Token → Nat → Except PErr (List Token × Nat)
  | 0, _, _, cur => .error (LoxError.fuel, cur)
  | fuel + 1, toks, acc, cur =>
      if acc.length ≥ 255 then
        .error (LoxError.parser (peek toks cur) ParserErrorType.MaxArgNumber, cur)
      else do
        let (p, c1) ← consume toks cur TokenType.Identifier
        let (m, c2) := matchs_next toks c1 [TokenType.Comma]
        if m then paramsLoop fuel toks (acc ++ [p]) c2
        else .ok (acc ++ [p], c2)
  termination_by structural fuel => fuel

/-- `Parser::declaration`: try `fun`, then fall through to the `var` test
and the statement parse; every error is reported (`eprintln`, not
modelled), synchronised past, and swallowed. -/
def declaration : Nat → List Token → Nat → Except PErr (Option Stmt × Nat)
  | 0, _, cur => .error (LoxError.fuel, cur)
  | fuel + 1, toks, cur =>
      let (mFun, c1) := matchs_next toks cur [TokenType.Fun]
      if mFun then
        match function fuel toks c1 with
        | .ok (s, c2) => .ok (some s, c2)
        | .error (_, cE) => declarationTail fuel toks (synchronize fuel toks cE)
      else declarationTail fuel toks c1
  termination_by structural fuel => fuel

/-- The fall-through part of `Parser::declaration` after the `fun` branch:
the `var` test, then the statement parse. -/
def declarationTail : Nat → List Token → Nat → Except PErr (Option Stmt × Nat)
  | 0, _, cur => .error (LoxError.fuel, cur)
  | fuel + 1, toks, cur =>
      let (mVar, c1) := matchs_next toks cur [TokenType.Var]
      if mVar then
        match var_declaration fuel toks c1 with
        | .ok (s, c2) => .ok (some s, c2)
        | .error (_, cE) => declarationStmt fuel toks (synchronize fuel toks cE)
      else declarationStmt fuel toks c1
  termination_by structural fuel => fuel

/-- The final statement parse of `Parser::declaration`; an error yields
`Ok(None)` after synchronising. -/
def declarationStmt : Nat → List Token → Nat → Except PErr (Option Stmt × Nat)
  | 0, _, cur => .error (LoxError.fuel, cur)
  | fuel + 1, toks, cur =>
      match statement fuel toks cur with
      | .ok (s, c2) => .ok (some s, c2)
      | .error (_, cE) => .ok (none, synchronize fuel toks cE)
  termination_by structural fuel => fuel

/-- `Parser::synchronize`: advance once, then advance until just past a
semicolon or at the end (the keyword `match` in the source has empty
arms and is a no-op). -/
def synchronize : Nat → List Token → Nat → Nat
  | 0, _, cur => cur
  | fuel + 1, toks, cur => syncLoop fuel toks (advance toks cur).2

/-- The `while` loop of `Parser::synchronize`. -/
def syncLoop : Nat → List Token → Nat → Nat
  | 0, _, cur => cur
  | fuel + 1, toks, cur =>
      if !(is_at_end toks cur) then
        if (previous toks cur).ttype == TokenType.Semicolon then cur
        else syncLoop fuel toks (advance toks cur).2
      else cur
  termination_by structural fuel => fuel

/-- `Parser::parse`. -/
def parse : Nat → List Token → Nat → Except PErr (List Stmt × Nat)
  | 0, _, cur => .error (LoxError.fuel, cur)
  | fuel + 1, toks, cur => parseLoop fuel toks [] cur

/-- The `while` loop of `Parser::parse`. -/
def parseLoop : Nat → List Token → List Stmt → Nat → Except PErr (List Stmt × Nat)
  | 0, _, _, cur => .error (LoxError.fuel, cur)
  | fuel + 1, toks, acc, cur =>
      if !(is_at_end toks cur) then
        match declaration fuel toks cur with
        | .ok (some s, c1) => parseLoop fuel toks (acc ++ [s]) c1
        | .ok (none, c1) => parseLoop fuel toks acc c1
        | .error e => .error e
      else .ok (acc, cur)

  termination_by structural fuel => fuel
end

/-! ## Specification-side definitions

These definitions are written from the claims' wording (not from the
source); the theorems below compare the source-derived functions against
them. -/

/-- The frames of a chain as a list, innermost first. -/
def Environment.frames : Environment → List Frame
  | .global v => [v]
  | .nested v e => v :: e.frames

/-- Innermost-first lookup over a frame list, written from the claim text
of C8: the value bound in the first frame that binds the name. -/
def specGet : List Frame → String → Option Object
  | [], _ => none
  | f :: rest, n =>
      match Frame.getVal f n with
      | some v => some v
      | none => specGet rest n

/-- Innermost-first assignment over a frame list, written from the claim
text of C8: overwrite the binding in the first frame that has one; `none`
when no frame binds the name (no binding is ever created). -/
def specAssign : List Frame → String → Object → Option (List Frame)
  | [], _, _ => none
  | f :: rest, n, v =>
      if (Frame.getVal f n).isSome then some (Frame.insert f n v :: rest)
      else (specAssign rest n v).map (fun fs => f :: fs)

/-- Lookup of a name in the `i`-th frame of the chain (0 = innermost). -/
def frameLookup (env : Environment) (i : Nat) (n : String) : Option Object :=
  match env.frames.get? i with
  | some f => Frame.getVal f n
  | none => none

/-- Iterated `enclosing`: exactly `n` hops up the chain. -/
def enclosingIter : Environment → Nat → Option Environment
  | e, 0 => some e
  | .global _, _ + 1 => none
  | .nested _ p, n + 1 => enclosingIter p n

/-- The condition of the lowered `for` loop, written from the claim text of
C7: the parsed condition, or a `true` literal when absent. -/
def condOrTrue : Option Expr → Expr
  | some c => c
  | none => Expr.Literal (some Object.True)

/-- The lowered form of a `for` statement, written from the claim text of
C7: `Block [init?, While(cond-or-true, Block [body, incr?])]`, the outer
`Block` omitted when there is no initialiser and the inner `Block` when
there is no increment. -/
def forLoweredSpec : Option Stmt → Option Expr → Option Expr → Stmt → Stmt
  | some init, cond, some incr, body =>
      Stmt.Block [init,
        Stmt.While (condOrTrue cond) (Stmt.Block [body, Stmt.Expression incr])]
  | some init, cond, none, body =>
      Stmt.Block [init, Stmt.While (condOrTrue cond) body]
  | none, cond, some incr, body =>
      Stmt.While (condOrTrue cond) (Stmt.Block [body, Stmt.Expression incr])
  | none, cond, none, body =>
      Stmt.While (condOrTrue cond) body

/-! ## Concrete inputs used by witnesses and counterexamples -/

/-- A token without a literal payload. -/
def tk (tt : TokenType) (lx : String) (i : Nat) : Token :=
  { ttype := tt, lexeme := lx, literal := none,
    src_line := 1, src_start := i, src_end := i + 1 }

/-- A number token. -/
def numTk (q : ℚ) (i : Nat) : Token :=
  { ttype := TokenType.Number, lexeme := "", literal := some (Object.Num q),
    src_line := 1, src_start := i, src_end := i + 1 }

/-- An identifier token named `x`. -/
def xT : Token := tk TokenType.Identifier "x" 4

/-- An identifier token named `i`, at position `i`. -/
def iT (i : Nat) : Token := tk TokenType.Identifier "i" i

/-- Tokens of `while (true) print 1;`. -/
def toksWhile : List Token :=
  [tk TokenType.While "while" 0, tk TokenType.LeftParen "(" 1,
   tk TokenType.True "true" 2, tk TokenType.RightParen ")" 3,
   tk TokenType.Print "print" 4, numTk 1 5,
   tk TokenType.Semicolon ";" 6, Token.eof 1 7]

/-- Tokens of `for (var i = 0; i < 2; i = i + 1) print i;`. -/
def toksFor : List Token :=
  [tk TokenType.For "for" 0, tk TokenType.LeftParen "(" 1,
   tk TokenType.Var "var" 2, iT 3, tk TokenType.Equal "=" 4, numTk 0 5,
   tk TokenType.Semicolon ";" 6,
   iT 7, tk TokenType.Less "<" 8, numTk 2 9, tk TokenType.Semicolon ";" 10,
   iT 11, tk TokenType.Equal "=" 12, iT 13, tk TokenType.Plus "+" 14, numTk 1 15,
   tk TokenType.RightParen ")" 16,
   tk TokenType.Print "print" 17, iT 18, tk TokenType.Semicolon ";" 19,
   Token.eof 1 20]

/-- Tokens of `x = 1;`. -/
def toksAssign : List Token :=
  [tk TokenType.Identifier "x" 0, tk TokenType.Equal "=" 1,
   numTk 1 2, tk TokenType.Semicolon ";" 3, Token.eof 1 4]

/-- An empty global environment. -/
def envGlobal : Environment := Environment.global []

/-- Global frame binding `x` to `1`. -/
def envA : Environment := Environment.global [("x", Object.Num 1)]

/-- An empty frame whose parent is `envA`. -/
def envB : Environment := Environment.nested [] envA

/-- An empty frame whose parent is `envB`: the chain `envC → envB → envA`
with `x` bound only in the outermost frame. -/
def envC : Environment := Environment.nested [] envB

/-- The chain `y ↦ 5` over `x ↦ 1` used by the C8/C10 witnesses. -/
def envD : Environment := Environment.nested [("y", Object.Num 5)] envA

/-- The expression `1 - "a"`, which errors at runtime. -/
def badMinus : Expr :=
  Expr.Binary (Expr.Literal (some (Object.Num 1))) (tk TokenType.Minus "-" 1)
    (Expr.Literal (some (Object.Str "a")))

/-- A property-access left-hand side `obj.f` (the `Get` shape of the
spec's data model). -/
def getLhs : Expr :=
  Expr.Get (Expr.Variable (tk TokenType.Identifier "obj" 0))
    (tk TokenType.Identifier "f" 2)

/-- The `=` token of the C6 counterexample. -/
def eqT : Token := tk TokenType.Equal "=" 3

/-- The statement `for (var i = 0; i < 2; i = i + 1) print i;` lowers to. -/
def forLoweredStmt : Stmt :=
  Stmt.Block
    [Stmt.Var (iT 3) (some (Expr.Literal (some (Object.Num 0)))),
     Stmt.While
       (Expr.Binary (Expr.Variable (iT 7)) (tk TokenType.Less "<" 8)
         (Expr.Literal (some (Object.Num 2))))
       (Stmt.Block
         [Stmt.Print (Expr.Variable (iT 18)),
          Stmt.Expression
            (Expr.Assign (iT 11)
              (Expr.Binary (Expr.Variable (iT 13)) (tk TokenType.Plus "+" 14)
                (Expr.Literal (some (Object.Num 1)))))])]

/-- The chain `envD` after assigning `9` to `x`. -/
def envD' : Environment :=
  Environment.nested [("y", Object.Num 5)] (Environment.global [("x", Object.Num 9)])

/-! ## Helper lemmas -/

theorem Frame.getVal_insert_self (f : Frame) (n : String) (v : Object) :
    Frame.getVal (Frame.insert f n v) n = some v := by
  induction f with
  | nil => simp [Frame.insert, Frame.getVal]
  | cons hd tl ih =>
      obtain ⟨k, w⟩ := hd
      by_cases h : k = n
      · subst h
        simp [Frame.insert, Frame.getVal]
      · simp [Frame.insert, Frame.getVal, h, ih]

theorem Frame.getVal_insert_ne (f : Frame) (n m : String) (v : Object)
    (h : m ≠ n) : Frame.getVal (Frame.insert f n v) m = Frame.getVal f m := by
  induction f with
  | nil =>
      simp only [Frame.insert, Frame.getVal]
      rw [if_neg (fun hh => h hh.symm)]
  | cons hd tl ih =>
      obtain ⟨k, w⟩ := hd
      by_cases hk : k = n
      · subst hk
        simp only [Frame.insert, Frame.getVal, if_pos rfl]
        rw [if_neg (fun hh => h hh.symm), if_neg (fun hh => h hh.symm)]
      · simp [Frame.insert, Frame.getVal, hk, ih]

theorem Frame.isSome_getVal_insert (f : Frame) (n m : String) (v : Object)
    (h : (Frame.getVal f n).isSome) :
    (Frame.getVal (Frame.insert f n v) m).isSome = (Frame.getVal f m).isSome := by
  by_cases hm : m = n
  · subst hm
    rw [Frame.getVal_insert_self]
    simp [h]
  · rw [Frame.getVal_insert_ne _ _ _ _ hm]

@[simp] theorem frames_global (v : Frame) :
    (Environment.global v).frames = [v] := rfl

@[simp] theorem frames_nested (v : Frame) (e : Environment) :
    (Environment.nested v e).frames = v :: e.frames := rfl

@[simp] theorem frameLookup_global_zero (f : Frame) (n : String) :
    frameLookup (Environment.global f) 0 n = Frame.getVal f n := rfl

@[simp] theorem frameLookup_global_succ (f : Frame) (i : Nat) (n : String) :
    frameLookup (Environment.global f) (i + 1) n = none := rfl

@[simp] theorem frameLookup_nested_zero (f : Frame) (e : Environment) (n : String) :
    frameLookup (Environment.nested f e) 0 n = Frame.getVal f n := rfl

@[simp] theorem frameLookup_nested_succ (f : Frame) (e : Environment) (i : Nat)
    (n : String) :
    frameLookup (Environment.nested f e) (i + 1) n = frameLookup e i n := rfl

theorem env_get_specGet (env : Environment) (tok : Token) :
    env.get tok = (match specGet env.frames tok.lexeme with
      | some o => Except.ok o
      | none => Except.error EnvError.UnknownVariable) := by
  induction env with
  | global v =>
      cases h : Frame.getVal v tok.lexeme <;>
        simp [Environment.get, specGet, h]
  | nested v e ih =>
      cases h : Frame.getVal v tok.lexeme <;>
        simp [Environment.get, specGet, h, ih]

theorem specGet_none_iff (fs : List Frame) (n : String) :
    specGet fs n = none ↔ ∀ f ∈ fs, Frame.getVal f n = none := by
  induction fs with
  | nil => simp [specGet]
  | cons f rest ih =>
      cases h : Frame.getVal f n <;> simp [specGet, h, ih]

theorem assign_ok_specAssign (env : Environment) (tok : Token) (v : Object) :
    ∀ env', env.assign tok v = .ok env' →
      specAssign env.frames tok.lexeme v = some env'.frames := by
  induction env with
  | global f =>
      intro env' h
      by_cases hh : (Frame.getVal f tok.lexeme).isSome
      · simp only [Environment.assign, if_pos hh, Except.ok.injEq] at h
        simp [specAssign, hh, ← h]
      · simp [Environment.assign, hh] at h
  | nested f e ih =>
      intro env' h
      by_cases hh : (Frame.getVal f tok.lexeme).isSome
      · simp only [Environment.assign, if_pos hh, Except.ok.injEq] at h
        simp [specAssign, hh, ← h]
      · simp only [Environment.assign, if_neg hh] at h
        cases he : e.assign tok v with
        | ok e' =>
            rw [he] at h
            simp only [Except.map, Except.ok.injEq] at h
            simp [specAssign, hh, ih e' he, ← h]
        | error er =>
            rw [he] at h
            simp [Except.map] at h

theorem assign_error_iff (env : Environment) (tok : Token) (v : Object) :
    env.assign tok v = .error EnvError.UnknownVariable ↔
      ∀ f ∈ env.frames, Frame.getVal f tok.lexeme = none := by
  induction env with
  | global f =>
      by_cases hh : (Frame.getVal f tok.lexeme).isSome
      · simp only [Environment.assign, if_pos hh]
        simp [Option.isSome_iff_exists.mp hh]
        intro hnone
        rw [hnone] at hh
        simp at hh
      · simp only [Environment.assign, if_neg hh]
        simp [Option.not_isSome_iff_eq_none.mp hh]
  | nested f e ih =>
      by_cases hh : (Frame.getVal f tok.lexeme).isSome
      · simp only [Environment.assign, if_pos hh]
        constructor
        · intro h; cases h
        · intro h
          have := h f (by simp)
          rw [this] at hh
          simp at hh
      · simp only [Environment.assign, if_neg hh]
        have hnone := Option.not_isSome_iff_eq_none.mp hh
        cases he : e.assign tok v with
        | ok e' =>
            simp only [he, Except.map]
            constructor
            · intro h; cases h
            · intro h
              have : e.assign tok v = .error EnvError.UnknownVariable :=
                (ih).mpr (fun g hg => h g (by simp [hg]))
              rw [he] at this
              cases this
        | error er =>
            cases er
            simp only [he, Except.map]
            rw [he] at ih
            refine ⟨fun _ a ha => ?_, fun _ => trivial⟩
            rcases List.mem_cons.mp (by simpa using ha) with h0 | h1
            · subst h0; exact hnone
            · exact ih.mp rfl a h1

theorem assign_effect (env : Environment) (tok : Token) (v : Object) :
    ∀ env', env.assign tok v = .ok env' →
      ∃ i, (frameLookup env i tok.lexeme).isSome
        ∧ (∀ j, j < i → frameLookup env j tok.lexeme = none)
        ∧ frameLookup env' i tok.lexeme = some v
        ∧ ∀ j m, ¬(j = i ∧ m = tok.lexeme) →
            frameLookup env' j m = frameLookup env j m := by
  induction env with
  | global f =>
      intro env' h
      by_cases hh : (Frame.getVal f tok.lexeme).isSome
      · simp only [Environment.assign, if_pos hh, Except.ok.injEq] at h
        subst h
        refine ⟨0, by simpa using hh, by omega, by simp [Frame.getVal_insert_self], ?_⟩
        intro j m hjm
        match j with
        | 0 =>
            have hm : m ≠ tok.lexeme := fun hm => hjm ⟨rfl, hm⟩
            simp [Frame.getVal_insert_ne _ _ _ _ hm]
        | j + 1 => simp
      · simp [Environment.assign, hh] at h
  | nested f e ih =>
      intro env' h
      by_cases hh : (Frame.getVal f tok.lexeme).isSome
      · simp only [Environment.assign, if_pos hh, Except.ok.injEq] at h
        subst h
        refine ⟨0, by simpa using hh, by omega, by simp [Frame.getVal_insert_self], ?_⟩
        intro j m hjm
        match j with
        | 0 =>
            have hm : m ≠ tok.lexeme := fun hm => hjm ⟨rfl, hm⟩
            simp [Frame.getVal_insert_ne _ _ _ _ hm]
        | j + 1 => simp
      · simp only [Environment.assign, if_neg hh] at h
        cases he : e.assign tok v with
        | ok e' =>
            rw [he] at h
            simp only [Except.map, Except.ok.injEq] at h
            subst h
            obtain ⟨i, h1, h2, h3, h4⟩ := ih e' he
            refine ⟨i + 1, by simpa using h1, ?_, by simpa using h3, ?_⟩
            · intro j hj
              match j with
              | 0 => simpa using Option.not_isSome_iff_eq_none.mp hh
              | j + 1 =>
                  have : j < i := by omega
                  simpa using h2 j this
            · intro j m hjm
              match j with
              | 0 => simp
              | j + 1 =>
                  have : ¬(j = i ∧ m = tok.lexeme) := fun ⟨hji, hml⟩ => hjm ⟨by omega, hml⟩
                  simpa using h4 j m this
        | error er =>
            rw [he] at h
            simp [Except.map] at h

theorem ancestorLoop_eq_enclosingIter (p : Environment) (n : Nat) :
    Environment.ancestorLoop p n = enclosingIter p n := by
  induction n generalizing p with
  | zero => cases p <;> rfl
  | succ n ih => cases p <;> simp [Environment.ancestorLoop, enclosingIter, ih]

theorem ancestor_eq_enclosingIter (env : Environment) (d : Nat) :
    env.ancestor d = enclosingIter env (max d 1) := by
  cases env with
  | global v =>
      have : ∃ k, max d 1 = k + 1 := ⟨max d 1 - 1, by omega⟩
      obtain ⟨k, hk⟩ := this
      simp [Environment.ancestor, hk, enclosingIter]
  | nested v p =>
      have : max d 1 = (d - 1) + 1 := by omega
      rw [Environment.ancestor, this]
      simp [enclosingIter, ancestorLoop_eq_enclosingIter]

theorem assignReattach_none_iff (n : Nat) (p : Environment) (tok : Token)
    (v : Object) :
    Environment.assignReattach p n tok v = none ↔
      Environment.ancestorLoop p n = none := by
  induction n generalizing p with
  | zero => cases p <;> simp [Environment.assignReattach, Environment.ancestorLoop]
  | succ n ih =>
      cases p with
      | global f => simp [Environment.assignReattach, Environment.ancestorLoop]
      | nested f e =>
          simp [Environment.assignReattach, Environment.ancestorLoop, ih]

theorem assignReattach_error_iff (n : Nat) (p : Environment) (tok : Token)
    (v : Object) (er : EnvError) :
    Environment.assignReattach p n tok v = some (.error er) ↔
      ∃ a, Environment.ancestorLoop p n = some a ∧ a.assign tok v = .error er := by
  induction n generalizing p with
  | zero =>
      cases p <;>
        simp [Environment.assignReattach, Environment.ancestorLoop]
  | succ n ih =>
      cases p with
      | global f => simp [Environment.assignReattach, Environment.ancestorLoop]
      | nested f e =>
          simp only [Environment.assignReattach, Environment.ancestorLoop]
          constructor
          · intro h
            cases hr : Environment.assignReattach e n tok v with
            | none => rw [hr] at h; cases h
            | some r =>
                rw [hr] at h
                simp only [Option.map_some', Option.some.injEq] at h
                cases r with
                | ok r' => simp [Except.map] at h
                | error er' =>
                    have : er' = er := by cases er; cases er'; rfl
                    subst this
                    exact (ih e).mp hr
          · intro h
            rw [(ih e).mpr h]
            simp [Except.map]

theorem assignReattach_isSome_iff (n : Nat) (p : Environment) (tok : Token)
    (v : Object) :
    (Environment.assignReattach p n tok v).isSome ↔
      (Environment.ancestorLoop p n).isSome := by
  rw [Option.isSome_iff_ne_none, Option.isSome_iff_ne_none, ne_eq, ne_eq,
    assignReattach_none_iff]

/-! ## Claims -/

/-- Claim C1, what the code actually does at the claim's failing input:
executing `var x = 1; print x;` produces no output at all. `visit_var_stmt`
evaluates the initialiser and discards it — the `environment.define` call
in `src/src/interpreter.rs` is commented out behind a TODO — so nothing is
ever bound, the subsequent read of `x` fails with `InvalidExpression`
(second conjunct), and `visit_print_stmt` swallows that error. The claim
says `x` is defined and the read returns `1`. -/
theorem c1_var_stmt_defines_nothing :
    interpret envGlobal
      [Stmt.Var xT (some (Expr.Literal (some (Object.Num 1)))),
       Stmt.Print (Expr.Variable xT)] = [] ∧
    evaluate envGlobal (Expr.Variable xT) = .error ExprError.InvalidExpression :=
  ⟨rfl, rfl⟩

set_option maxRecDepth 10000 in
/-- Claim C2, what the code actually does at the claim's failing input: the
well-formed `while (true) print 1;` is rejected. After the condition,
`while_statement` consumes `LeftParen` where the claim (and the function's
own error message) requires `RightParen`, so the parse fails with
`InvalidConsumeType` at the `)` token (index 3). -/
theorem c2_while_statement_rejects_valid_input :
    RsLox.statement 50 toksWhile 0 =
      .error (LoxError.parser (tk TokenType.RightParen ")" 3)
        ParserErrorType.InvalidConsumeType, 3) := rfl

/-- Claim C3, counterexample: a program whose first statement errors at
runtime (`1 - "a"`) still executes its second statement — the error is
printed to stderr and `print 2;` still writes its output; nothing is
surfaced to the caller (`interpret` is total and returns only the output
trace). The claim says execution aborts at the failing statement. -/
theorem c3_counterexample :
    interpret envGlobal
      [Stmt.Expression badMinus, Stmt.Print (Expr.Literal (some (Object.Num 2)))] =
      [OutEvent.stderrError ExprError.InvalidExpression,
       OutEvent.stdoutValue (Object.Num 2)] := rfl

/-- Claim C3 as amended: when an expression statement's evaluation produces
a runtime error, the interpreter prints the error (stderr) and continues
with the remaining statements unchanged; the error is never surfaced to the
caller. -/
theorem c3_error_printed_and_execution_continues
    (env : Environment) (e : Expr) (er : ExprError) (rest : List Stmt)
    (h : evaluate env e = .error er) :
    interpret env (Stmt.Expression e :: rest) =
      OutEvent.stderrError er :: interpret env rest := by
  simp [interpret, execute, visitStmt, h]

/-- Witness for C3's amended theorem at `1 - "a"` followed by `print 0;`. -/
theorem c3_witness :
    interpret envGlobal
      [Stmt.Expression badMinus, Stmt.Print (Expr.Literal (some (Object.Num 0)))] =
      OutEvent.stderrError ExprError.InvalidExpression ::
        interpret envGlobal [Stmt.Print (Expr.Literal (some (Object.Num 0)))] :=
  c3_error_printed_and_execution_continues envGlobal badMinus
    ExprError.InvalidExpression [Stmt.Print (Expr.Literal (some (Object.Num 0)))] rfl

/-- Claim C4, counterexample: in the chain `envC → envB → envA` with `x`
bound only in the outermost frame `envA`, `get_at(1, x)` from `envC` finds
`x = 1` even though frame `envB` — exactly 1 hop away — does not bind `x`
in its own map: `get_at` with positive distance runs the fully recursive
`get` from the ancestor. The claim says this must be `UnknownVariable`. -/
theorem c4_counterexample :
    envC.get_at 1 xT = some (Except.ok (Object.Num 1)) ∧
    Frame.getVal envB.values "x" = none ∧
    envC.get_at 1 xT ≠ some (Except.error EnvError.UnknownVariable) :=
  ⟨rfl, rfl, fun h => nomatch h⟩

/-- Claim C4 as amended: `get_at(0)` reads only the current frame's own
map; `get_at(d)` for `d > 0` walks `d` frames and then performs the fully
recursive `get` from there (so names bound only in further ancestors are
still found); `ancestor(d)` takes `max d 1` hops — for `d = 0` it already
moves to the enclosing frame — so `assign_at(d)` performs the fully
recursive `assign` from the frame `max d 1` hops away, and panics
(modelled `none`) exactly when `ancestor` does. -/
theorem c4_get_at_assign_at_behaviour
    (env : Environment) (d : Nat) (tok : Token) (v : Object) :
    (env.get_at 0 tok = some (match Frame.getVal env.values tok.lexeme with
        | some o => Except.ok o
        | none => Except.error EnvError.UnknownVariable)) ∧
    (0 < d → ∀ a, env.ancestor d = some a → env.get_at d tok = some (a.get tok)) ∧
    (env.ancestor d = enclosingIter env (max d 1)) ∧
    ((env.assign_at d tok v).isSome ↔ (env.ancestor d).isSome) ∧
    (∀ er, env.assign_at d tok v = some (.error er) ↔
      ∃ a, env.ancestor d = some a ∧ a.assign tok v = .error er) := by
  refine ⟨?_, ?_, ancestor_eq_enclosingIter env d, ?_, ?_⟩
  · simp [Environment.get_at]
  · intro hd a ha
    simp [Environment.get_at, hd, ha]
  · cases env with
    | global f => simp [Environment.assign_at, Environment.ancestor]
    | nested f p =>
        simp only [Environment.assign_at, Environment.ancestor, Option.isSome_map']
        exact assignReattach_isSome_iff _ _ _ _
  · intro er
    cases env with
    | global f => simp [Environment.assign_at, Environment.ancestor]
    | nested f p =>
        show (Environment.assignReattach p (d - 1) tok v).map
            (Except.map (Environment.nested f)) = some (.error er) ↔
          ∃ a, Environment.ancestorLoop p (d - 1) = some a ∧
            a.assign tok v = .error er
        constructor
        · intro h
          cases hr : Environment.assignReattach p (d - 1) tok v with
          | none => rw [hr] at h; cases h
          | some r =>
              rw [hr] at h
              simp only [Option.map_some', Option.some.injEq] at h
              cases r with
              | ok r' => simp [Except.map] at h
              | error er' =>
                  have : er' = er := by cases er; cases er'; rfl
                  subst this
                  exact (assignReattach_error_iff _ _ _ _ _).mp hr
        · intro h
          rw [(assignReattach_error_iff _ _ _ _ _).mpr h]
          simp [Except.map]

/-- Witness for C4's amended theorem: from `envC`, `get_at 1` is the fully
recursive `get` run from `envB`. -/
theorem c4_witness :
    envC.get_at 1 xT = some (envB.get xT) :=
  (c4_get_at_assign_at_behaviour envC 1 xT (Object.Num 9)).2.1 (by decide) envB rfl

/-- Claim C5, what the code actually does at the claim's failing input:
`1 - "a"` evaluates to the placeholder error `InvalidExpression` — the
source's `Minus`/`Slash`/`Star` arms carry "TODO: Specific error" comments
— and not to the `ExpectedNumberOperand(s)` error the claim (and
`RuntimeErrorType` in `src/src/errors.rs`) prescribes. -/
theorem c5_minus_yields_placeholder_error :
    evaluate envGlobal badMinus = .error ExprError.InvalidExpression ∧
    ExprError.InvalidExpression ≠ ExprError.ExpectedNumberOperands ∧
    ExprError.InvalidExpression ≠ ExprError.ExpectedNumberOperand :=
  ⟨rfl, by decide, by decide⟩

/-- Claim C6, counterexample: a `Get` left-hand side (the spec's
`obj.f = 1`) is dispatched to the invalid-assignment-target error at the
`=` token, not to a `Set` node — the source's `assignment` has no `Get`
arm and no `Set` node exists anywhere in the parser. -/
theorem c6_counterexample :
    assignTarget getLhs eqT (Expr.Literal (some (Object.Num 1))) =
      .error (LoxError.parser eqT ParserErrorType.InvalidAssignTarget) ∧
    assignTarget getLhs eqT (Expr.Literal (some (Object.Num 1))) ≠
      .ok (Expr.Set (Expr.Variable (tk TokenType.Identifier "obj" 0))
        (tk TokenType.Identifier "f" 2) (Expr.Literal (some (Object.Num 1)))) :=
  ⟨rfl, fun h => nomatch h⟩

/-- Claim C6 as amended: after the left expression and an `=` are parsed, a
structurally-`Variable` left side becomes `Assign(name, value)`; every
other left side — `Get` included, which this parser can in fact never
produce since it has no property-access parsing and no `Set` node — is an
`InvalidAssignTarget` parser error whose token is the `=` token. -/
theorem c6_assignment_dispatch
    (fuel : Nat) (toks : List Token) (cur c1 c3 : Nat) (lhs value : Expr)
    (h1 : orP fuel toks cur = .ok (lhs, c1))
    (h2 : check toks c1 TokenType.Equal = true)
    (h3 : assignment fuel toks (c1 + 1) = .ok (value, c3)) :
    assignment (fuel + 1) toks cur =
      match lhs with
      | Expr.Variable name => .ok (Expr.Assign name value, c3)
      | _ => .error (LoxError.parser (tokenAt toks c1)
          ParserErrorType.InvalidAssignTarget, c3) := by
  have hend : is_at_end toks c1 = false := by
    cases hx : is_at_end toks c1 with
    | false => rfl
    | true => simp [check, hx] at h2
  have hmn : matchs_next toks c1 [TokenType.Equal] = (true, c1 + 1) := by
    simp [matchs_next, h2, advance, hend]
  have hprev : previous toks (c1 + 1) = tokenAt toks c1 := by
    simp [previous]
  simp only [assignment, h1, hmn, hprev, h3, bind, Except.bind, if_true]
  cases lhs <;> simp [assignTarget]

/-- Witness for C6's amended theorem at `x = 1;`: the `Variable` left side
becomes an `Assign`. -/
theorem c6_witness :
    assignment 31 toksAssign 0 =
      .ok (Expr.Assign (tk TokenType.Identifier "x" 0)
        (Expr.Literal (some (Object.Num 1))), 3) := by
  have h := c6_assignment_dispatch 30 toksAssign 0 1 3
    (Expr.Variable (tk TokenType.Identifier "x" 0))
    (Expr.Literal (some (Object.Num 1))) rfl rfl rfl
  exact h

set_option maxRecDepth 10000 in
/-- Claim C7: the assembly tail of `for_statement` produces exactly the
claimed lowering — `Block [init?, While(cond-or-true, Block [body, incr?])]`
with the outer `Block` omitted when there is no initialiser and the inner
`Block` when there is no increment — and the concrete program
`for (var i = 0; i < 2; i = i + 1) print i;` parses to exactly that
`While`-based form (the `Stmt` type of the parser has no `for` node at
all). -/
theorem c7_for_lowering :
    (∀ (initializer : Option Stmt) (condition increment : Option Expr) (body : Stmt),
      forAssemble initializer condition increment body =
        forLoweredSpec initializer condition increment body) ∧
    RsLox.statement 100 toksFor 0 = .ok (forLoweredStmt, 20) := by
  constructor
  · intro initializer condition increment body
    cases initializer <;> cases condition <;> cases increment <;> rfl
  · rfl

/-- Claim C8: `get` returns the innermost binding (specification lookup
`specGet` over the frame list) and errors with `UnknownVariable` exactly
when no frame binds the name; a successful `assign` rewrites the chain
exactly as the specification assignment `specAssign` (overwrite the
innermost existing binding), errors with `UnknownVariable` exactly when no
frame binds the name, and never creates a binding anywhere. -/
theorem c8_get_assign_innermost
    (env : Environment) (tok : Token) (v : Object) :
    (env.get tok = (match specGet env.frames tok.lexeme with
      | some o => Except.ok o
      | none => Except.error EnvError.UnknownVariable)) ∧
    (env.get tok = .error EnvError.UnknownVariable ↔
      ∀ f ∈ env.frames, Frame.getVal f tok.lexeme = none) ∧
    (∀ env', env.assign tok v = .ok env' →
      specAssign env.frames tok.lexeme v = some env'.frames) ∧
    (env.assign tok v = .error EnvError.UnknownVariable ↔
      ∀ f ∈ env.frames, Frame.getVal f tok.lexeme = none) ∧
    (∀ env' i m, env.assign tok v = .ok env' →
      (frameLookup env' i m).isSome → (frameLookup env i m).isSome) := by
  refine ⟨env_get_specGet env tok, ?_, assign_ok_specAssign env tok v,
    assign_error_iff env tok v, ?_⟩
  · rw [env_get_specGet env tok, ← specGet_none_iff]
    cases h : specGet env.frames tok.lexeme with
    | none => simp
    | some o => simp
  · intro env' i m h hs
    obtain ⟨i0, hoc, _, _, h4⟩ := assign_effect env tok v env' h
    by_cases him : i = i0 ∧ m = tok.lexeme
    · obtain ⟨hi, hm⟩ := him
      subst hi; subst hm
      exact hoc
    · rw [h4 i m him] at hs
      exact hs

/-- Witness for C8: assigning `9` to `x` in the chain `envD`
(`y ↦ 5` over `x ↦ 1`) rewrites the frames exactly as the specification
assignment does. -/
theorem c8_witness :
    specAssign envD.frames "x" (Object.Num 9) = some envD'.frames :=
  (c8_get_assign_innermost envD xT (Object.Num 9)).2.2.1 envD' rfl

/-- Claim C9, counterexample: the `Display` impl in `src/src/token.rs`
writes string contents surrounded by double quotes, so `"foo"` is
displayed as `"foo"` with the quote characters, not as its bare
contents. -/
theorem c9_counterexample :
    Object.display (Object.Str "foo") = "\"foo\"" ∧ "\"foo\"" ≠ "foo" :=
  ⟨rfl, by decide⟩

/-- Claim C9 as amended: `Nil`, `True`, `False` display as `nil`, `true`,
`false`; a `String` displays as its contents SURROUNDED by double quote
characters; an integral `Number` displays with no trailing `.0`
(its integer part only). -/
theorem c9_display_forms :
    Object.display Object.Nil = "nil" ∧
    Object.display Object.True = "true" ∧
    Object.display Object.False = "false" ∧
    (∀ s, Object.display (Object.Str s) = "\"" ++ s ++ "\"") ∧
    ∀ q : ℚ, q.den = 1 → Object.display (Object.Num q) = toString q.num :=
  ⟨rfl, rfl, rfl, fun _ => rfl, fun _ h => by simp [Object.display, renderNum, h]⟩

/-- Witness for C9's amended theorem at the integral number `3`. -/
theorem c9_witness : Object.display (Object.Num 3) = "3" :=
  (c9_display_forms.2.2.2.2 3 (by decide)).trans (by decide)

/-- Claim C10: `define` rebinds only the given name in the current frame —
every other binding of the current frame and all enclosing frames are
untouched — and a successful `assign` changes exactly the single innermost
existing binding of the name, leaving every other `(frame, name)` slot in
the whole chain unchanged. -/
theorem c10_define_assign_locality
    (env : Environment) (n : String) (v : Object) (tok : Token) (w : Object) :
    (Frame.getVal (env.define n v).values n = some v) ∧
    (∀ m, m ≠ n → Frame.getVal (env.define n v).values m =
      Frame.getVal env.values m) ∧
    ((env.define n v).frames.tail = env.frames.tail) ∧
    (∀ env', env.assign tok w = .ok env' →
      ∃ i, (frameLookup env i tok.lexeme).isSome
        ∧ (∀ j, j < i → frameLookup env j tok.lexeme = none)
        ∧ frameLookup env' i tok.lexeme = some w
        ∧ ∀ j m, ¬(j = i ∧ m = tok.lexeme) →
            frameLookup env' j m = frameLookup env j m) := by
  refine ⟨?_, ?_, ?_, fun env' h => assign_effect env tok w env' h⟩
  · cases env <;>
      simp [Environment.define, Environment.values, Frame.getVal_insert_self]
  · intro m hm
    cases env <;>
      simp [Environment.define, Environment.values,
        Frame.getVal_insert_ne _ _ _ _ hm]
  · cases env <;> rfl

/-- Witness for C10: assigning `9` to `x` in `envD` changes exactly the
binding of `x` in the outermost frame. -/
theorem c10_witness :
    ∃ i, (frameLookup envD i "x").isSome
      ∧ (∀ j, j < i → frameLookup envD j "x" = none)
      ∧ frameLookup envD' i "x" = some (Object.Num 9)
      ∧ ∀ j m, ¬(j = i ∧ m = "x") →
          frameLookup envD' j m = frameLookup envD j m :=
  (c10_define_assign_locality envD "z" Object.Nil xT (Object.Num 9)).2.2.2 envD' rfl

end RsLox
